import Mathlib

/-!
Shallow embedding of torrust-hash2torrent (Rust) for specification checking.

Conventions:
- Rust `String` / `&str` values are modelled as `List Nat` of Unicode scalar
  values; all strings manipulated by this program are ASCII, so scalar values
  coincide with UTF-8 bytes.  Raw byte buffers (`Bytes`, `ByteBufOwned`) are
  `List Nat` with each element `< 256`.
- The librqbit engine is external: a `Session` is modelled as a pure oracle
  from the add-torrent input and options to the engine outcome, exactly the
  interface `session.add_torrent(...)` consumed by the repository's code.
- Fallible Rust code returns `Except`/`Option`; a Rust `panic!` (from
  `.expect`) is modelled as `Option.none`.
-/

/-- ASCII scalar values of a Lean string literal; used only on ASCII literals,
where scalar values and UTF-8 bytes coincide. -/
def str (s : String) : List Nat :=
  s.data.map (fun c => c.toNat)

/-- ASCII lowercasing on a scalar value, the fragment of Rust
`str::to_lowercase` relevant to hex parsing (no Unicode character outside
`A`-`Z` lowercases to an ASCII hex digit). -/
def asciiLower (n : Nat) : Nat :=
  if 65 ≤ n ∧ n ≤ 90 then n + 32 else n

/-- Lowercase a whole modelled string. -/
def lowerStr (s : List Nat) : List Nat :=
  s.map asciiLower

-- ## Info-hash parser (src/info_hash.rs is not under src/)

/-- Hex value of an ASCII scalar, lowercase digits only (input is lowercased
before parsing). -/
def hexVal? (c : Nat) : Option (Fin 16) :=
  if h : 48 ≤ c ∧ c ≤ 57 then some ⟨c - 48, by omega⟩
  else if h2 : 97 ≤ c ∧ c ≤ 102 then some ⟨c - 87, by omega⟩
  else none

/-- ASCII code of the lowercase hex digit for a nibble. -/
def hexDigitCode (n : Fin 16) : Nat :=
  if n.val < 10 then 48 + n.val else 87 + n.val

/-- Combine two nibbles into a byte. -/
def byteOfNibbles (hi lo : Fin 16) : Fin 256 :=
  ⟨hi.val * 16 + lo.val, by omega⟩

/-- Decode a list of hex-digit scalars, two per byte; fails on a non-hex
digit or an odd length. -/
def fromHexPairs : List Nat → Option (List (Fin 256))
  | [] => some []
  | [_] => none
  | c1 :: c2 :: rest =>
    match hexVal? c1, hexVal? c2, fromHexPairs rest with
    | some hi, some lo, some bs => some (byteOfNibbles hi lo :: bs)
    | _, _, _ => none

theorem fromHexPairs_length :
    ∀ (l : List Nat) (bs : List (Fin 256)),
      fromHexPairs l = some bs → l.length = 2 * bs.length
  | [], bs, h => by simp [fromHexPairs] at h; simp [← h]
  | [_], _, h => by simp [fromHexPairs] at h
  | c1 :: c2 :: rest, bs, h => by
    simp only [fromHexPairs] at h
    cases h1 : hexVal? c1 <;> cases h2 : hexVal? c2 <;>
      cases h3 : fromHexPairs rest <;> simp [h1, h2, h3] at h
    rename_i bs0
    have := fromHexPairs_length rest bs0 h3
    simp [← h, List.length_cons, this]
    omega

/-- Modelled from the spec: the canonical `InfoHash` of `src/info_hash.rs`
(not under `src/`): a fixed-length sequence of 20 bytes. -/
def InfoHash := { l : List (Fin 256) // l.length = 20 }

instance : DecidableEq InfoHash := fun a b =>
  decidable_of_iff (a.val = b.val) Subtype.ext_iff.symm

/-- Modelled from the spec: `InfoHash::from_str` of `src/info_hash.rs` (not
under `src/`): the input is lowercased and decoded as hex digit pairs, and
the result must be exactly 20 bytes — equivalently, the input must be
exactly 40 hex characters; any deviation (wrong length, non-hex character)
fails. -/
def InfoHash.from_str (s : List Nat) : Option InfoHash :=
  match fromHexPairs (lowerStr s) with
  | some bs => if hl : bs.length = 20 then some ⟨bs, hl⟩ else none
  | none => none

/-- Modelled from the spec: `InfoHash::to_hex_string` of `src/info_hash.rs`
(not under `src/`): canonical lowercase-hex rendering, two digits per byte. -/
def InfoHash.to_hex (h : InfoHash) : List Nat :=
  h.val.flatMap (fun b => [hexDigitCode ⟨b.val / 16, by omega⟩,
                           hexDigitCode ⟨b.val % 16, by omega⟩])

-- ## librqbit engine boundary (external collaborator)

/-- The torrent metainfo returned by the engine.  The structure is opaque to
this program except for the optional `name` field (raw bytes of the declared
torrent name); the remaining fields are elided. -/
structure TorrentMetaV1Info where
  name : Option (List Nat)
deriving DecidableEq

/-- Shared state of a managed torrent handle (`handle.shared()`): the cached
metainfo and torrent bytes; other fields elided. -/
structure ManagedTorrentShared where
  info : TorrentMetaV1Info
  torrent_bytes : List Nat
deriving DecidableEq

/-- A managed-torrent handle, exposing its shared state. -/
structure ManagedTorrentHandle where
  shared : ManagedTorrentShared
deriving DecidableEq

/-- librqbit `ListOnlyResponse`; fields other than `info` and
`torrent_bytes` are elided (the code's pattern match discards them with
`..`). -/
structure ListOnlyResponse where
  info : TorrentMetaV1Info
  torrent_bytes : List Nat
deriving DecidableEq

/-- librqbit `AddTorrentResponse`. -/
inductive AddTorrentResponse where
  | alreadyManaged (id : Nat) (handle : ManagedTorrentHandle)
  | listOnly (r : ListOnlyResponse)
  | added (id : Nat) (handle : ManagedTorrentHandle)
deriving DecidableEq

/-- librqbit `AddTorrent` input, built with `AddTorrent::from_url`. -/
inductive AddTorrent where
  | from_url (url : List Nat)
deriving DecidableEq

/-- librqbit `AddTorrentOptions`; only `list_only` is set by this program,
the remaining options are elided (left at their defaults). -/
structure AddTorrentOptions where
  list_only : Bool
deriving DecidableEq

/-- An opaque engine-side error (`anyhow::Error`); the program discards its
content. -/
structure AnyhowError where
  msg : List Nat

/-- The engine session, modelled as an oracle for `session.add_torrent`:
from the add-torrent input and options to the submission outcome. -/
def Session := AddTorrent → AddTorrentOptions → Except AnyhowError AddTorrentResponse

-- ## src/bit_torrent/client.rs

/-- Error taxonomy of `Client::resolve_magnet`
(src/bit_torrent/client.rs). -/
inductive ResolveMagnetError where
  | NoSession
  | AddedForDownloading
  | NotAdded
deriving DecidableEq

/-- The BitTorrent client (src/bit_torrent/client.rs). -/
structure Client where
  opt_session : Option Session
  output_dir : List Nat
  listen_port_range : Option (Nat × Nat)

/-- `Client::resolve_magnet` (src/bit_torrent/client.rs, lines 67-106) in
state-passing form: the Rust method takes `&self`, so each branch returns
the client unchanged alongside the result.  With a session, the magnet link
is submitted in list-only mode; a submission error is `NotAdded`;
`AlreadyManaged` succeeds with the handle's cached metainfo and bytes;
`ListOnly` succeeds with its metainfo and bytes; `Added` is
`AddedForDownloading`.  Without a session the call fails with
`NoSession`. -/
def Client.resolve_magnet_st (c : Client) (magnet_link : List Nat) :
    Except ResolveMagnetError (TorrentMetaV1Info × List Nat) × Client :=
  match c.opt_session with
  | some session =>
    match session (AddTorrent.from_url magnet_link) ⟨true⟩ with
    | .error _ => (.error .NotAdded, c)
    | .ok added =>
      match added with
      | .alreadyManaged _ handle =>
          (.ok (handle.shared.info, handle.shared.torrent_bytes), c)
      | .listOnly r => (.ok (r.info, r.torrent_bytes), c)
      | .added _ _ => (.error .AddedForDownloading, c)
  | none => (.error .NoSession, c)

/-- The result of `Client::resolve_magnet`. -/
def Client.resolve_magnet (c : Client) (magnet_link : List Nat) :
    Except ResolveMagnetError (TorrentMetaV1Info × List Nat) :=
  (c.resolve_magnet_st magnet_link).1

-- ## HTTP responses (src/server/mod.rs)

/-- An HTTP response: status code, headers in insertion order (name, value
bytes), and body bytes. -/
structure Response where
  status : Nat
  headers : List (String × List Nat)
  body : List Nat
deriving DecidableEq

/-- Model of axum's `(StatusCode, &str).into_response()`: the given status
with a plain-text body. -/
def plainTextResponse (status : Nat) (s : String) : Response :=
  ⟨status, [("content-type", str "text/plain; charset=utf-8")], str s⟩

/-- Validity of a byte as part of an HTTP header value, per the `http`
crate's `HeaderValue` (visible bytes, space, and horizontal tab). -/
def headerByteValid (b : Nat) : Bool :=
  (32 ≤ b && b ≠ 127) || b = 9

/-- Validity of a whole header value. -/
def headerValueValid (v : List Nat) : Bool :=
  v.all headerByteValid

/-- Model of `"...".parse::<HeaderValue>()`: succeeds with the same bytes
exactly when every byte is allowed in a header value. -/
def parseHeaderValue (v : List Nat) : Option (List Nat) :=
  if headerValueValid v then some v else none

/-- Whether a byte is a UTF-8 continuation byte. -/
def utf8Cont (b : Nat) : Bool :=
  128 ≤ b && b ≤ 191

/-- Strict UTF-8 validity of a byte sequence, as checked by Rust's
`std::str::from_utf8` (rejects overlong forms and surrogate code points). -/
def validUtf8 : List Nat → Bool
  | [] => true
  | b :: rest =>
    if b ≤ 127 then validUtf8 rest
    else
      match rest with
      | [] => false
      | b1 :: rest1 =>
        if 194 ≤ b && b ≤ 223 then utf8Cont b1 && validUtf8 rest1
        else
          match rest1 with
          | [] => false
          | b2 :: rest2 =>
            if b = 224 then
              (160 ≤ b1 && b1 ≤ 191) && utf8Cont b2 && validUtf8 rest2
            else if (225 ≤ b && b ≤ 236) || b = 238 || b = 239 then
              utf8Cont b1 && utf8Cont b2 && validUtf8 rest2
            else if b = 237 then
              (128 ≤ b1 && b1 ≤ 159) && utf8Cont b2 && validUtf8 rest2
            else
              match rest2 with
              | [] => false
              | b3 :: rest3 =>
                if b = 240 then
                  (144 ≤ b1 && b1 ≤ 191) && utf8Cont b2 && utf8Cont b3 &&
                    validUtf8 rest3
                else if 241 ≤ b && b ≤ 243 then
                  utf8Cont b1 && utf8Cont b2 && utf8Cont b3 && validUtf8 rest3
                else if b = 244 then
                  (128 ≤ b1 && b1 ≤ 143) && utf8Cont b2 && utf8Cont b3 &&
                    validUtf8 rest3
                else false

namespace Server

/-- Error taxonomy local to the HTTP server module (src/server/mod.rs,
lines 46-49): the session is taken as given here, so there is no
`NoSession` variant. -/
inductive ResolveMagnetError where
  | AddedForDownloading
  | NotAdded
deriving DecidableEq

/-- The server-side `resolve_magnet` (src/server/mod.rs, lines 143-175):
submits the url in list-only mode and classifies the engine outcome;
identical to `Client::resolve_magnet` except that a session is always
present. -/
def resolve_magnet (session : Session) (url : List Nat) :
    Except ResolveMagnetError (TorrentMetaV1Info × List Nat) :=
  match session (AddTorrent.from_url url) ⟨true⟩ with
  | .error _ => .error .NotAdded
  | .ok added =>
    match added with
    | .alreadyManaged _ handle =>
        .ok (handle.shared.info, handle.shared.torrent_bytes)
    | .listOnly r => .ok (r.info, r.torrent_bytes)
    | .added _ _ => .error .AddedForDownloading

/-- `torrent_file_response` (src/server/mod.rs, lines 185-207): builds the
200 response with content-type, content-disposition and info-hash headers.
Each header value is parsed with `.expect`, so an unencodable value panics;
the panic is modelled as `none`. -/
def torrent_file_response (bytes : List Nat) (filename : List Nat)
    (info_hash : List Nat) : Option Response :=
  match parseHeaderValue (str "application/x-bittorrent") with
  | none => none
  | some ct =>
    match parseHeaderValue (str "attachment; filename=" ++ filename) with
    | none => none
    | some cd =>
      match parseHeaderValue info_hash with
      | none => none
      | some ihv =>
        some ⟨200, [("content-type", ct), ("content-disposition", cd),
                    ("x-torrust-torrent-infohash", ihv)], bytes⟩

/-- The torrent-name resolution inside `get_metainfo` (src/server/mod.rs,
lines 124-133): the engine-declared name when present and valid UTF-8,
otherwise the hex info-hash. -/
def filename_base (info : TorrentMetaV1Info) (hex : List Nat) : List Nat :=
  match info.name with
  | some nb => if validUtf8 nb then nb else hex
  | none => hex

/-- `get_metainfo` (src/server/mod.rs, lines 108-141): lowercases the path
parameter, parses it as an info-hash (failure is a 400 response before any
engine interaction), builds the magnet link, resolves it, and either builds
the torrent-file response or a generic 500 response.  `none` models a panic
inside `torrent_file_response`. -/
def get_metainfo (session : Session) (info_hash_param : List Nat) :
    Option Response :=
  match InfoHash.from_str (lowerStr info_hash_param) with
  | none => some (plainTextResponse 400 "Invalid info hash")
  | some ih =>
    let hex := ih.to_hex
    let magnet := str "magnet:?xt=urn:btih:" ++ hex
    match resolve_magnet session magnet with
    | .ok (info, bytes) =>
        torrent_file_response bytes (filename_base info hex ++ str ".torrent")
          hex
    | .error _ => some (plainTextResponse 500 "BitTorrent client error")

/-- The global per-request deadline in seconds (src/server/mod.rs, line 28:
`Duration::from_secs(10)`). -/
def TIMEOUT : Nat := 10

/-- The middleware stack of `start` (src/server/mod.rs, lines 68-79)
around a handler's response: tower's `TimeoutLayer` fails the request when
handling time exceeds `TIMEOUT` (external-library semantics, per the spec),
and `HandleErrorLayer` turns that failure into a bare
`StatusCode::REQUEST_TIMEOUT` (408) response; within the deadline the inner
response passes through. -/
def requestPipeline (elapsedSecs : Nat) (inner : Response) : Response :=
  if TIMEOUT < elapsedSecs then ⟨408, [], []⟩ else inner

/-- The hyper connection-builder options set by `from_tcp_with_timeouts`;
each is absent until configured. -/
structure HttpServerConfig where
  http1_header_read_timeout : Option Nat
  http2_keep_alive_timeout : Option Nat
  http2_keep_alive_interval : Option Nat
deriving DecidableEq

/-- A freshly built server before the timeout calls (`axum_server::from_tcp`):
no header-read or keep-alive timeout configured. -/
def serverDefaults : HttpServerConfig := ⟨none, none, none⟩

/-- `http1().header_read_timeout(d)`. -/
def set_header_read_timeout (s : HttpServerConfig) (d : Nat) : HttpServerConfig :=
  ⟨some d, s.http2_keep_alive_timeout, s.http2_keep_alive_interval⟩

/-- `http2().keep_alive_timeout(d)`. -/
def set_keep_alive_timeout (s : HttpServerConfig) (d : Nat) : HttpServerConfig :=
  ⟨s.http1_header_read_timeout, some d, s.http2_keep_alive_interval⟩

/-- `http2().keep_alive_interval(d)`. -/
def set_keep_alive_interval (s : HttpServerConfig) (d : Nat) : HttpServerConfig :=
  ⟨s.http1_header_read_timeout, s.http2_keep_alive_timeout, some d⟩

/-- `from_tcp_with_timeouts` (src/server/mod.rs, lines 89-106; identically
src/api/mod.rs, lines 68-85): sets a 1-second header-read timeout and
1-second keep-alive timeout and interval on the fresh server. -/
def from_tcp_with_timeouts : HttpServerConfig :=
  set_keep_alive_interval
    (set_keep_alive_timeout (set_header_read_timeout serverDefaults 1) 1) 1

/-- Outcome of an accepted TCP connection's header-read phase. -/
inductive ConnOutcome where
  | closedNoResponse
  | headersAccepted
deriving DecidableEq

/-- Modelled from the spec: the slowloris defense (src/server/slowloris.rs,
`TimeoutAcceptor`, not under `src/`) together with hyper's
`header_read_timeout`: a connection that has not delivered a complete set of
request headers within the configured bound is closed without a response;
with no bound configured (or within the bound) the headers are accepted. -/
def acceptHeaders (cfg : HttpServerConfig) (headerReadSecs : Nat) : ConnOutcome :=
  match cfg.http1_header_read_timeout with
  | some bound =>
    if bound < headerReadSecs then .closedNoResponse else .headersAccepted
  | none => .headersAccepted

end Server

namespace Api

/-- Modelled from the spec: the API resolution handler
(src/api/handler.rs, `get_metainfo_file_handler`, not under `src/`).  It
follows the spec's error table and the server module's `get_metainfo`
verbatim, but resolves through `Client::resolve_magnet`, so the `NoSession`
error also arises; every resolution error maps to the same generic 500
response. -/
def get_metainfo_file_handler (c : Client) (info_hash_param : List Nat) :
    Option Response :=
  match InfoHash.from_str (lowerStr info_hash_param) with
  | none => some (plainTextResponse 400 "Invalid info hash")
  | some ih =>
    let hex := ih.to_hex
    let magnet := str "magnet:?xt=urn:btih:" ++ hex
    match c.resolve_magnet magnet with
    | .ok (info, bytes) =>
        Server.torrent_file_response bytes
          (Server.filename_base info hex ++ str ".torrent") hex
    | .error _ => some (plainTextResponse 500 "BitTorrent client error")

end Api

-- ## Statement-side predicates

/-- Whether a scalar is a hex digit, case-insensitively (the condition of
the spec's parser contract). -/
def isHexDigitCI (c : Nat) : Bool :=
  (48 ≤ c && c ≤ 57) || (97 ≤ c && c ≤ 102) || (65 ≤ c && c ≤ 70)

/-- Whether a string is exactly 40 hex characters, case-insensitively. -/
def is40Hex (s : List Nat) : Bool :=
  s.length == 40 && s.all isHexDigitCI

-- ## Hex parsing lemmas

theorem hexVal?_hexDigitCode : ∀ n : Fin 16, hexVal? (hexDigitCode n) = some n := by
  decide

theorem asciiLower_hexDigitCode :
    ∀ n : Fin 16, asciiLower (hexDigitCode n) = hexDigitCode n := by
  decide

theorem asciiLower_idem (n : Nat) : asciiLower (asciiLower n) = asciiLower n := by
  simp only [asciiLower]
  split_ifs <;> omega

theorem lowerStr_idem (s : List Nat) : lowerStr (lowerStr s) = lowerStr s := by
  induction s with
  | nil => rfl
  | cons c cs ih =>
    simp only [lowerStr, List.map_cons] at ih ⊢
    rw [asciiLower_idem, ih]

/-- The byte-to-hex encoder used by `InfoHash.to_hex`. -/
def encByte (b : Fin 256) : List Nat :=
  [hexDigitCode ⟨b.val / 16, by omega⟩, hexDigitCode ⟨b.val % 16, by omega⟩]

theorem to_hex_eq_flatMap (h : InfoHash) : h.to_hex = h.val.flatMap encByte := rfl

theorem flatMap_encByte_cons (b : Fin 256) (bs : List (Fin 256)) :
    (b :: bs).flatMap encByte =
      hexDigitCode ⟨b.val / 16, by omega⟩ ::
        hexDigitCode ⟨b.val % 16, by omega⟩ :: bs.flatMap encByte := by
  simp [List.flatMap_cons, encByte]

theorem fromHexPairs_flatMap_encByte (l : List (Fin 256)) :
    fromHexPairs (l.flatMap encByte) = some l := by
  induction l with
  | nil => rfl
  | cons b bs ih =>
    have hb : byteOfNibbles ⟨b.val / 16, by omega⟩ ⟨b.val % 16, by omega⟩ = b := by
      apply Fin.ext
      simp [byteOfNibbles]
      omega
    rw [flatMap_encByte_cons]
    simp only [fromHexPairs, hexVal?_hexDigitCode, ih, hb]

theorem flatMap_encByte_length (l : List (Fin 256)) :
    (l.flatMap encByte).length = 2 * l.length := by
  induction l with
  | nil => rfl
  | cons b bs ih =>
    rw [flatMap_encByte_cons]
    simp [ih]
    omega

theorem lowerStr_flatMap_encByte (l : List (Fin 256)) :
    lowerStr (l.flatMap encByte) = l.flatMap encByte := by
  induction l with
  | nil => rfl
  | cons b bs ih =>
    rw [flatMap_encByte_cons]
    simp only [lowerStr, List.map_cons] at ih ⊢
    rw [asciiLower_hexDigitCode, asciiLower_hexDigitCode, ih]

theorem from_str_to_hex (h : InfoHash) : InfoHash.from_str h.to_hex = some h := by
  unfold InfoHash.from_str
  rw [to_hex_eq_flatMap, lowerStr_flatMap_encByte, fromHexPairs_flatMap_encByte]
  exact dif_pos h.prop

theorem from_str_congr (s t : List Nat) (h : lowerStr s = lowerStr t) :
    InfoHash.from_str s = InfoHash.from_str t := by
  unfold InfoHash.from_str
  rw [h]

/-- C9: parsing is case-insensitive (strings equal up to letter case parse
identically, hence to the same canonical InfoHash and the same lowercase hex
output), parsing is deterministic, the canonical hex of an InfoHash parses
back to it, and hex rendering round-trips. -/
theorem infoHash_parse_canonical :
    (∀ s t : List Nat, lowerStr s = lowerStr t →
      InfoHash.from_str s = InfoHash.from_str t) ∧
    (∀ h : InfoHash, InfoHash.from_str h.to_hex = some h) ∧
    (∀ h : InfoHash,
      (InfoHash.from_str h.to_hex).map InfoHash.to_hex = some h.to_hex) :=
  ⟨from_str_congr, from_str_to_hex, fun h => by rw [from_str_to_hex]; rfl⟩

/-- A sample 20-byte info-hash (all zero bytes). -/
def ih0 : InfoHash := ⟨List.replicate 20 ⟨0, by omega⟩, by simp⟩

/-- The 40-character all-zero hex string. -/
def p0 : List Nat := List.replicate 40 48

/-- Witness for C9 at concrete inputs: a mixed-case and a lowercase spelling
of the same hash parse identically, and the sample hash round-trips. -/
theorem infoHash_parse_canonical_witness :
    InfoHash.from_str (str "443C7602B4FDE83D1154D6D9DA48808418B181B6") =
      InfoHash.from_str (str "443c7602b4fde83d1154d6d9da48808418b181b6") ∧
    InfoHash.from_str ih0.to_hex = some ih0 :=
  ⟨infoHash_parse_canonical.1 _ _ (by decide),
   infoHash_parse_canonical.2.1 ih0⟩

-- ## C1: engine-response classification

/-- C1: with an available engine session, `Client::resolve_magnet`
classifies the engine's add-torrent response exactly as: `AlreadyManaged`
succeeds with the handle's cached metainfo and torrent bytes; `ListOnly`
succeeds with its metainfo and torrent bytes; `Added` (added for download)
yields `AddedForDownloading`; an error from the submission call itself
yields `NotAdded`. -/
theorem resolve_magnet_classification (c : Client) (sess : Session)
    (link : List Nat) (hs : c.opt_session = some sess) :
    (∀ id handle, sess (AddTorrent.from_url link) ⟨true⟩ =
        .ok (.alreadyManaged id handle) →
      c.resolve_magnet link = .ok (handle.shared.info, handle.shared.torrent_bytes)) ∧
    (∀ r, sess (AddTorrent.from_url link) ⟨true⟩ = .ok (.listOnly r) →
      c.resolve_magnet link = .ok (r.info, r.torrent_bytes)) ∧
    (∀ id handle, sess (AddTorrent.from_url link) ⟨true⟩ =
        .ok (.added id handle) →
      c.resolve_magnet link = .error .AddedForDownloading) ∧
    (∀ e, sess (AddTorrent.from_url link) ⟨true⟩ = .error e →
      c.resolve_magnet link = .error .NotAdded) := by
  refine ⟨fun id handle hresp => ?_, fun r hresp => ?_,
          fun id handle hresp => ?_, fun e hresp => ?_⟩ <;>
    simp only [Client.resolve_magnet, Client.resolve_magnet_st, hs, hresp]

/-- A session oracle whose submissions always report an already-managed
torrent with cached bytes `[7]`. -/
def sessAM : Session :=
  fun _ _ => .ok (.alreadyManaged 0 ⟨⟨⟨none⟩, [7]⟩⟩)

/-- A client holding the `sessAM` session. -/
def clientAM : Client := ⟨some sessAM, [], none⟩

/-- Witness for C1 at a concrete client: an already-managed engine response
is returned as success with the cached metainfo and bytes. -/
theorem resolve_magnet_classification_witness :
    clientAM.resolve_magnet [] = .ok (⟨none⟩, [7]) :=
  (resolve_magnet_classification clientAM sessAM [] rfl).1 0 ⟨⟨⟨none⟩, [7]⟩⟩ rfl

-- ## C4: no session

/-- C4: for every magnet identifier, a client without a session fails
immediately with `NoSession`. -/
theorem resolve_magnet_no_session (c : Client) (link : List Nat)
    (h : c.opt_session = none) :
    c.resolve_magnet link = .error .NoSession := by
  simp only [Client.resolve_magnet, Client.resolve_magnet_st, h]

/-- A client with no engine session. -/
def clientNoSession : Client := ⟨none, [], none⟩

/-- Witness for C4 at a concrete client without a session. -/
theorem resolve_magnet_no_session_witness :
    clientNoSession.resolve_magnet (str "magnet:?xt=urn:btih:00") =
      .error .NoSession :=
  resolve_magnet_no_session clientNoSession _ rfl

-- ## C10: resolve_magnet leaves the client unchanged

/-- C10: `Client::resolve_magnet` leaves every field of the client
(`opt_session`, `output_dir`, `listen_port_range`) unchanged, whatever the
magnet link, the session state and the outcome. -/
theorem resolve_magnet_preserves_client (c : Client) (link : List Nat) :
    (c.resolve_magnet_st link).2.opt_session = c.opt_session ∧
    (c.resolve_magnet_st link).2.output_dir = c.output_dir ∧
    (c.resolve_magnet_st link).2.listen_port_range = c.listen_port_range := by
  have h2 : (c.resolve_magnet_st link).2 = c := by
    unfold Client.resolve_magnet_st
    repeat' split
    all_goals rfl
  rw [h2]
  exact ⟨rfl, rfl, rfl⟩

-- ## C2: header construction does not fall back; it panics

/-- Counterexample to C2: for a successfully resolved torrent whose computed
filename contains a line feed (not encodable as a header value), the
builder does not fall back to a sanitized value — it panics (modelled as
`none`), so no response is produced. -/
theorem torrent_file_response_no_fallback :
    Server.torrent_file_response [1, 2, 3] [10] p0 = none := by decide

/-- C2 (amended): the response builder has no fallback: building succeeds
exactly when the computed content-disposition value and the info-hash
header value are encodable as header values; an unencodable value makes the
builder panic (no response) instead of substituting a sanitized value. -/
theorem torrent_file_response_builds_iff_encodable
    (bytes filename info_hash : List Nat) :
    (Server.torrent_file_response bytes filename info_hash).isSome =
      (headerValueValid (str "attachment; filename=" ++ filename) &&
        headerValueValid info_hash) := by
  unfold Server.torrent_file_response parseHeaderValue
  have hct : headerValueValid (str "application/x-bittorrent") = true := by decide
  rw [if_pos hct]
  by_cases h1 : headerValueValid (str "attachment; filename=" ++ filename)
  · rw [if_pos h1]
    by_cases h2 : headerValueValid info_hash
    · rw [if_pos h2]; simp [h1, h2]
    · rw [if_neg h2]; simp [h1, h2]
  · rw [if_neg h1]; simp [h1]

-- ## C7: global request timeout

/-- C7: the global per-request deadline is 10 seconds, and a request whose
handling exceeds it gets a 408 Request Timeout response regardless of what
the inner handler would have produced; the pipeline is total (the timeout
is per-request, not a process fault). -/
theorem request_timeout_yields_408 (elapsedSecs : Nat) (inner : Response)
    (h : Server.TIMEOUT < elapsedSecs) :
    Server.requestPipeline elapsedSecs inner = ⟨408, [], []⟩ ∧
    Server.TIMEOUT = 10 := by
  unfold Server.requestPipeline
  rw [if_pos h]
  exact ⟨rfl, rfl⟩

/-- Witness for C7: at 11 seconds, even a ready 200 response is replaced by
408. -/
theorem request_timeout_yields_408_witness :
    Server.requestPipeline 11 (plainTextResponse 200 "ok") = ⟨408, [], []⟩ :=
  (request_timeout_yields_408 11 (plainTextResponse 200 "ok") (by decide)).1

-- ## C8: connection-level header-read and keep-alive bounds

/-- C8: `from_tcp_with_timeouts` configures a 1-second header-read bound and
1-second keep-alive timeout and interval, and a connection that has not
completed its request headers within that bound is closed without a
response. -/
theorem header_read_and_keep_alive_bounds (t : Nat) (h : 1 < t) :
    Server.from_tcp_with_timeouts.http1_header_read_timeout = some 1 ∧
    Server.from_tcp_with_timeouts.http2_keep_alive_timeout = some 1 ∧
    Server.from_tcp_with_timeouts.http2_keep_alive_interval = some 1 ∧
    Server.acceptHeaders Server.from_tcp_with_timeouts t = .closedNoResponse := by
  refine ⟨rfl, rfl, rfl, ?_⟩
  unfold Server.acceptHeaders
  simp only [Server.from_tcp_with_timeouts, Server.set_keep_alive_interval,
    Server.set_keep_alive_timeout, Server.set_header_read_timeout,
    Server.serverDefaults]
  rw [if_pos h]

/-- Witness for C8 at a concrete over-limit header-read time of 2 seconds. -/
theorem header_read_and_keep_alive_bounds_witness :
    Server.acceptHeaders Server.from_tcp_with_timeouts 2 = .closedNoResponse :=
  (header_read_and_keep_alive_bounds 2 (by decide)).2.2.2

-- ## C3: malformed info-hash rejected before any engine call

theorem fromHexPairs_all_hexVal :
    ∀ (l : List Nat) (bs : List (Fin 256)), fromHexPairs l = some bs →
      ∀ c ∈ l, (hexVal? c).isSome = true
  | [], _, _, _, hc => by cases hc
  | [_], _, h, _, _ => by simp [fromHexPairs] at h
  | c1 :: c2 :: rest, bs, h, c, hc => by
    simp only [fromHexPairs] at h
    cases h1 : hexVal? c1 <;> cases h2 : hexVal? c2 <;>
      cases h3 : fromHexPairs rest <;> simp [h1, h2, h3] at h
    rcases List.mem_cons.mp hc with rfl | hc2
    · simp [h1]
    · rcases List.mem_cons.mp hc2 with rfl | hc3
      · simp [h2]
      · exact fromHexPairs_all_hexVal rest _ h3 c hc3

theorem hexVal?_asciiLower (c : Nat) :
    (hexVal? (asciiLower c)).isSome = isHexDigitCI c := by
  simp only [hexVal?, asciiLower, isHexDigitCI]
  split_ifs <;> simp_all <;> omega

theorem from_str_none_of_not40Hex (p : List Nat) (h : is40Hex p = false) :
    InfoHash.from_str (lowerStr p) = none := by
  unfold InfoHash.from_str
  rw [lowerStr_idem]
  cases hfp : fromHexPairs (lowerStr p) with
  | none => rfl
  | some bs =>
    have hne : bs.length ≠ 20 := by
      intro hlen
      have h2 := fromHexPairs_length _ _ hfp
      have h3 : (lowerStr p).length = p.length := List.length_map _ _
      have hlenp : p.length = 40 := by omega
      have hall : p.all isHexDigitCI = true := by
        rw [List.all_eq_true]
        intro c hc
        have hmem : asciiLower c ∈ lowerStr p := List.mem_map_of_mem _ hc
        have h4 := fromHexPairs_all_hexVal _ _ hfp (asciiLower c) hmem
        rw [hexVal?_asciiLower] at h4
        exact h4
      have h5 : is40Hex p = true := by simp [is40Hex, hlenp, hall]
      rw [h5] at h
      cases h
    exact dif_neg hne

/-- C3: for every path parameter that is not exactly 40 hex characters
(case-insensitively), `get_metainfo` answers 400 `Invalid info hash`, and
the answer does not depend on the engine session — no engine call is needed
or made. -/
theorem get_metainfo_rejects_invalid_hash (sess sess2 : Session)
    (p : List Nat) (h : is40Hex p = false) :
    Server.get_metainfo sess p = some (plainTextResponse 400 "Invalid info hash") ∧
    Server.get_metainfo sess p = Server.get_metainfo sess2 p := by
  have hn := from_str_none_of_not40Hex p h
  unfold Server.get_metainfo
  rw [hn]
  exact ⟨rfl, rfl⟩

/-- A session oracle whose submissions always fail. -/
def sessErr : Session := fun _ _ => .error ⟨[]⟩

/-- A session oracle that always answers with a list-only response whose
torrent name contains a control character (a line feed). -/
def sessCtrl : Session :=
  fun _ _ => .ok (.listOnly ⟨⟨some [65, 10]⟩, [1, 2, 3]⟩)

/-- Witness for C3: the six-character parameter is rejected with 400 under
two different session oracles, with the same response. -/
theorem get_metainfo_rejects_invalid_hash_witness :
    Server.get_metainfo sessCtrl (str "nothex") =
      some (plainTextResponse 400 "Invalid info hash") ∧
    Server.get_metainfo sessCtrl (str "nothex") =
      Server.get_metainfo sessErr (str "nothex") :=
  get_metainfo_rejects_invalid_hash sessCtrl sessErr (str "nothex") (by decide)

-- ## C5: shape of the success response

theorem headerByteValid_hexDigitCode :
    ∀ n : Fin 16, headerByteValid (hexDigitCode n) = true := by
  decide

theorem headerValueValid_flatMap_encByte (l : List (Fin 256)) :
    headerValueValid (l.flatMap encByte) = true := by
  induction l with
  | nil => rfl
  | cons b bs ih =>
    rw [flatMap_encByte_cons]
    simp only [headerValueValid, List.all_cons, Bool.and_eq_true] at ih ⊢
    exact ⟨headerByteValid_hexDigitCode _, headerByteValid_hexDigitCode _, ih⟩

theorem to_hex_headerValid (h : InfoHash) : headerValueValid h.to_hex = true := by
  rw [to_hex_eq_flatMap]
  exact headerValueValid_flatMap_encByte h.val

theorem torrent_file_response_eq_of_valid (bytes filename info_hash : List Nat)
    (h1 : headerValueValid (str "attachment; filename=" ++ filename) = true)
    (h2 : headerValueValid info_hash = true) :
    Server.torrent_file_response bytes filename info_hash =
      some ⟨200, [("content-type", str "application/x-bittorrent"),
        ("content-disposition", str "attachment; filename=" ++ filename),
        ("x-torrust-torrent-infohash", info_hash)], bytes⟩ := by
  unfold Server.torrent_file_response parseHeaderValue
  rw [if_pos (by decide : headerValueValid (str "application/x-bittorrent") = true)]
  rw [if_pos h1, if_pos h2]

/-- Counterexample to C5: a successfully resolved torrent whose
engine-declared name is valid UTF-8 but contains a line feed produces no
response at all — the handler panics in the response builder instead of
returning the described 200 response. -/
theorem get_metainfo_success_but_no_response :
    Server.resolve_magnet sessCtrl (str "magnet:?xt=urn:btih:" ++ ih0.to_hex) =
      .ok (⟨some [65, 10]⟩, [1, 2, 3]) ∧
    Server.get_metainfo sessCtrl p0 = none := by
  constructor
  · rfl
  · decide

/-- C5 (amended): for every successful resolution whose computed
content-disposition value is encodable as a header value, the response has
status 200, a body byte-identical to the engine-returned torrent bytes,
content-type `application/x-bittorrent`, a content-disposition
`attachment; filename=<name>.torrent` where `<name>` is the engine-declared
name when present and valid UTF-8 and otherwise the lowercase hex
info-hash, and the custom info-hash header carrying the canonical hex;
without that proviso the builder panics and no response is produced. -/
theorem get_metainfo_success_response (sess : Session) (p : List Nat)
    (ih : InfoHash) (info : TorrentMetaV1Info) (bytes : List Nat)
    (hp : InfoHash.from_str (lowerStr p) = some ih)
    (hr : Server.resolve_magnet sess (str "magnet:?xt=urn:btih:" ++ ih.to_hex) =
      .ok (info, bytes))
    (hv : headerValueValid (str "attachment; filename=" ++
      (Server.filename_base info ih.to_hex ++ str ".torrent")) = true) :
    Server.get_metainfo sess p =
      some ⟨200,
        [("content-type", str "application/x-bittorrent"),
         ("content-disposition", str "attachment; filename=" ++
           (Server.filename_base info ih.to_hex ++ str ".torrent")),
         ("x-torrust-torrent-infohash", ih.to_hex)], bytes⟩ ∧
    Server.filename_base info ih.to_hex =
      (match info.name with
       | some nb => if validUtf8 nb then nb else ih.to_hex
       | none => ih.to_hex) := by
  constructor
  · simp only [Server.get_metainfo, hp, hr]
    exact torrent_file_response_eq_of_valid _ _ _ hv (to_hex_headerValid ih)
  · rfl

/-- A session oracle that always answers with a list-only response named
`ubuntu` and torrent bytes `[1, 2, 3]`. -/
def sessName : Session :=
  fun _ _ => .ok (.listOnly ⟨⟨some (str "ubuntu")⟩, [1, 2, 3]⟩)

/-- Witness for C5 at a concrete resolution: body, status and headers are
exactly as described. -/
theorem get_metainfo_success_response_witness :
    Server.get_metainfo sessName p0 =
      some ⟨200,
        [("content-type", str "application/x-bittorrent"),
         ("content-disposition", str "attachment; filename=" ++
           (Server.filename_base ⟨some (str "ubuntu")⟩ ih0.to_hex ++
             str ".torrent")),
         ("x-torrust-torrent-infohash", ih0.to_hex)], [1, 2, 3]⟩ :=
  (get_metainfo_success_response sessName p0 ih0 ⟨some (str "ubuntu")⟩
    [1, 2, 3] (by decide) rfl (by decide)).1

-- ## C6: all resolution errors map to the same 500 response

/-- C6: every resolution error outcome — `NoSession`, `NotAdded` or
`AddedForDownloading` — produces the same generic 500 response, so the
three error kinds are indistinguishable to the HTTP client. -/
theorem resolve_errors_same_response (c : Client) (p : List Nat)
    (ih : InfoHash) (e : ResolveMagnetError)
    (hp : InfoHash.from_str (lowerStr p) = some ih)
    (he : c.resolve_magnet (str "magnet:?xt=urn:btih:" ++ ih.to_hex) =
      .error e) :
    Api.get_metainfo_file_handler c p =
      some (plainTextResponse 500 "BitTorrent client error") ∧
    (plainTextResponse 500 "BitTorrent client error").status = 500 := by
  constructor
  · simp only [Api.get_metainfo_file_handler, hp, he]
  · rfl

/-- A client whose session always fails submissions. -/
def clientErr : Client := ⟨some sessErr, [], none⟩

/-- Witness for C6 at a concrete erroring client. -/
theorem resolve_errors_same_response_witness :
    Api.get_metainfo_file_handler clientErr p0 =
      some (plainTextResponse 500 "BitTorrent client error") :=
  (resolve_errors_same_response clientErr p0 ih0 .NotAdded (by decide) rfl).1
